import Mathlib

/-!
Verification of the shabtzak native shell (src/shabtzak-ui/src-tauri/src/main.rs).

Strings are modelled as `List Char`, matching Rust `&str` at the level of
character sequences.  Fallible operations return `Option`; the one code path
that panics is modelled with `Except`.  The filesystem touched by database
seeding is modelled as a partial map from paths to byte contents.
-/

namespace Shabtzak

/-- ASCII digit test: `48 ≤ c ≤ 57`, i.e. Rust `'0'..='9'`. -/
def isDigitChar (c : Char) : Bool := decide (48 ≤ c.toNat ∧ c.toNat ≤ 57)

/-- A character matched by the regex class `[0-9;]` in `strip_ansi_codes`. -/
def isAnsiParam (c : Char) : Bool := isDigitChar c || c = ';'

/-- Fuel-indexed scanner embedding `Regex::replace_all` for the pattern
`\x1b\[[0-9;]*m` (main.rs lines 9-13): scan left to right; at each position,
if `ESC [ <run of [0-9;]> m` matches (the run maximal, as the greedy star
with a non-class terminator forces), delete it and resume after the match,
otherwise keep the character and resume one position later.  One unit of
fuel is spent per scan position, and every recursive call is on a strictly
shorter list, so fuel `s.length` never runs out. -/
def stripAnsiGo : Nat → List Char → List Char
  | _, [] => []
  | 0, s => s
  | fuel+1, c :: rest =>
    if c = '\x1b' then
      match rest with
      | '[' :: rest2 =>
        match rest2.dropWhile isAnsiParam with
        | 'm' :: rest3 => stripAnsiGo fuel rest3
        | _ => c :: stripAnsiGo fuel rest
      | _ => c :: stripAnsiGo fuel rest
    else c :: stripAnsiGo fuel rest

/-- `strip_ansi_codes` (main.rs lines 9-13). -/
def stripAnsi (s : List Char) : List Char := stripAnsiGo s.length s

/-- Rust `char::is_whitespace` (Unicode `White_Space`), used by
`split_whitespace` in the pump task. -/
def isRustWhitespace (c : Char) : Bool :=
  decide (c.toNat = 0x20 ∨ c.toNat = 0x9 ∨ c.toNat = 0xa ∨ c.toNat = 0xb ∨
    c.toNat = 0xc ∨ c.toNat = 0xd ∨ c.toNat = 0x85 ∨ c.toNat = 0xa0 ∨
    c.toNat = 0x1680 ∨ (0x2000 ≤ c.toNat ∧ c.toNat ≤ 0x200a) ∨
    c.toNat = 0x2028 ∨ c.toNat = 0x2029 ∨ c.toNat = 0x202f ∨
    c.toNat = 0x205f ∨ c.toNat = 0x3000)

/-- `pat.isPrefixOf`-based substring test: Rust `str::contains` for a
plain-string pattern. -/
def hasSubstr (pat : List Char) : List Char → Bool
  | [] => pat.isEmpty
  | c :: rest => pat.isPrefixOf (c :: rest) || hasSubstr pat rest

/-- The remainder after the first occurrence of (non-empty) `sep`, or `none`
when `sep` does not occur: together with `upTo` this is
`line.split(sep).nth(1)` in Rust. -/
def afterFirst (sep : List Char) : List Char → Option (List Char)
  | [] => none
  | c :: rest =>
    if sep.isPrefixOf (c :: rest) then some (List.drop sep.length (c :: rest))
    else afterFirst sep rest

/-- The prefix of `s` up to (excluding) the next occurrence of `sep`: the
second split segment ends at the second occurrence of the separator. -/
def upTo (sep : List Char) : List Char → List Char
  | [] => []
  | c :: rest =>
    if sep.isPrefixOf (c :: rest) then [] else c :: upTo sep rest

/-- Rust `s.split_whitespace().next()`. -/
def firstToken (s : List Char) : Option (List Char) :=
  match s.dropWhile isRustWhitespace with
  | [] => none
  | c :: rest => some ((c :: rest).takeWhile (fun a => !isRustWhitespace a))

/-- Decimal value of a digit string, accumulated most-significant first as
Rust integer parsing does. -/
def decValue (s : List Char) : Nat :=
  s.foldl (fun acc c => acc * 10 + (c.toNat - 48)) 0

/-- Digit-string part of Rust `u16::from_str`: at least one ASCII digit and
a value within `u16` range, anything else is an error (`none`). -/
def parseDigitsU16 (s : List Char) : Option Nat :=
  if s = [] then none
  else if s.all isDigitChar then
    if decValue s ≤ 65535 then some (decValue s) else none
  else none

/-- Rust `str::parse::<u16>()`: optional leading `+`, then digits, value at
most 65535; any other shape (including a lone `+` or a `-` sign) fails. -/
def parseU16 : List Char → Option Nat
  | [] => none
  | c :: rest => if c = '+' then parseDigitsU16 rest else parseDigitsU16 (c :: rest)

/-- The literal `"Uvicorn running on"` tested with `line.contains` (line 102). -/
def uvicornPat : List Char := "Uvicorn running on".data

/-- The split separator `"http://127.0.0.1:"` (line 104). -/
def hostPat : List Char := "http://127.0.0.1:".data

/-- `line.split("http://127.0.0.1:").nth(1).and_then(|s| s.split_whitespace().next())`
(main.rs lines 103-107). -/
def portToken (line : List Char) : Option (List Char) :=
  match afterFirst hostPat line with
  | none => none
  | some rest => firstToken (upTo hostPat rest)

/-- The whole port-extraction conditional of the pump task (lines 102-108):
`some p` exactly when the code enters the `Ok(port)` branch with `port = p`. -/
def extractPort (line : List Char) : Option Nat :=
  if hasSubstr uvicornPat line then
    match portToken line with
    | none => none
    | some tok => parseU16 tok
  else none

/-- Decimal rendering of a natural number, embedding `format!("{}", port)`
for the parsed `u16`. -/
def digitChar : Nat → Char
  | 0 => '0' | 1 => '1' | 2 => '2' | 3 => '3' | 4 => '4'
  | 5 => '5' | 6 => '6' | 7 => '7' | 8 => '8' | _ => '9'

def natToDecimal (n : Nat) : List Char :=
  if _h : n < 10 then [digitChar n]
  else natToDecimal (n / 10) ++ [digitChar (n % 10)]
termination_by n
decreasing_by exact Nat.div_lt_self (by omega) (by omega)

/-- `format!("http://localhost:{}", port)` (line 110): the URL handed to the
GUI-injection script (which stores it in a global, in local storage, and
passes it to the update callback). -/
def backendUrl (p : Nat) : List Char := "http://localhost:".data ++ natToDecimal p

/-- The `"[api] "` prefix used by `writeln!(log_writer, "[api] {}", ...)`. -/
def apiPrefix : List Char := "[api] ".data

/-- Observable state of the pump task: the discovered port (`backend_port`,
initially 8000), the lines appended to `backend.log`, and the URLs injected
into the main window. -/
structure PumpState where
  backendPort : Nat
  logLines : List (List Char)
  evals : List (List Char)

/-- One iteration of the pump loop for a `Stdout`/`Stderr` line
(main.rs lines 92-127).  `hasMainWindow` models whether
`app_handle.get_window("main")` returns `Some`; `writeOk` models whether the
`writeln!` to the log file succeeds (on failure the error is printed and the
loop continues, so only the log append is skipped). -/
def processLine (hasMainWindow writeOk : Bool) (st : PumpState) (line : List Char) :
    PumpState :=
  let st1 := if writeOk
    then { st with logLines := st.logLines ++ [apiPrefix ++ stripAnsi line] }
    else st
  match extractPort line with
  | none => st1
  | some p =>
    { st1 with
      backendPort := p
      evals := if hasMainWindow then st1.evals ++ [backendUrl p] else st1.evals }

/-- The pump loop over a finite prefix of the child's output, each line
paired with whether its log write succeeds. -/
def pumpLines (hasMainWindow : Bool) (st : PumpState) :
    List (List Char × Bool) → PumpState
  | [] => st
  | (l, w) :: ls => pumpLines hasMainWindow (processLine hasMainWindow w st l) ls

/-- Last element of a list, or the default `d` for the empty list. -/
def lastSome (d : Nat) : List Nat → Nat
  | [] => d
  | x :: xs => lastSome x xs

/-- A port-announcement line exactly as uvicorn prints it, with an arbitrary
port number in place of `8734`. -/
def portLine (p : Nat) : List Char :=
  "Uvicorn running on http://127.0.0.1:".data ++ natToDecimal p ++
    " (Press CTRL+C to quit)".data

/-- The character substitution of `.replace('\\', "/")` (main.rs line 43). -/
def escSlash (c : Char) : Char := if c = '\\' then '/' else c

/-- `format!("sqlite:///{}", db_path.to_string_lossy().replace('\\', "/"))`
(main.rs lines 41-44), applied to the rendered database path. -/
def databaseUrl (dbPath : List Char) : List Char :=
  "sqlite:///".data ++ dbPath.map escSlash

/-- The fixed CLI arguments of the sidecar spawn (main.rs line 61). -/
def sidecarArgs : List (List Char) :=
  ["--host".data, "127.0.0.1".data, "--port".data, "8000".data]

/-- The environment passed to the sidecar: the single-entry map built on
main.rs lines 58-59. -/
def sidecarEnv (dbPath : List Char) : List (List Char × List Char) :=
  [("DATABASE_URL".data, databaseUrl dbPath)]

/-- Database seeding (main.rs lines 28-39) over a filesystem modelled as a
partial map from paths to contents: if the target `dbPath` does not exist,
the resource directory resolves (`resourcePath?` is `some`), the bundled
template exists there, and `std::fs::copy` succeeds, the template's contents
are written to `dbPath`; a copy error is printed and setup continues with
the filesystem unchanged. -/
def seedDatabase {Path : Type} [DecidableEq Path] {Bytes E : Type}
    (fs : Path → Option Bytes) (dbPath : Path) (resourcePath? : Option Path)
    (copyResult : Except E Unit) : Path → Option Bytes :=
  if (fs dbPath).isSome then fs
  else
    match resourcePath? with
    | none => fs
    | some rp =>
      match fs rp with
      | none => fs
      | some content =>
        match copyResult with
        | .ok _ => fun p => if p = dbPath then some content else fs p
        | .error _ => fs

/-- The pump task's starting state: `backend_port = 8000` (line 89), nothing
logged, nothing injected. -/
def initState : PumpState := { backendPort := 8000, logLines := [], evals := [] }

/-- Entry of the spawned pump task (main.rs lines 73-131): opening the log
file with `unwrap_or_else` aborts the task on failure (the source panics with
`Cannot open log file`), modelled as `Except.error` carrying the panic
message; on success the loop runs from the initial state. -/
def pumpTask {E H : Type} (openResult : Except E H) (hasMainWindow : Bool)
    (evs : List (List Char × Bool)) : Except (List Char) PumpState :=
  match openResult with
  | .error _ => .error "Cannot open log file".data
  | .ok _ => .ok (pumpLines hasMainWindow initState evs)

/-- A tiny concrete filesystem over `Nat` paths used by the witnesses:
path 1 holds the bundled template bytes `[7]`, path 0 (the target) is empty,
path 2 holds a pre-existing database `[3]`. -/
def exFs : Nat → Option (List Nat) :=
  fun p => if p = 1 then some [7] else if p = 2 then some [3] else none

/-! ### Generic list helpers -/

theorem isPrefixOf_append_self (l r : List Char) : l.isPrefixOf (l ++ r) = true := by
  induction l with
  | nil => simp [List.isPrefixOf]
  | cons a as ih => simp [List.isPrefixOf, ih]

theorem hasSubstr_append_self (pat rest : List Char) :
    hasSubstr pat (pat ++ rest) = true := by
  cases pat with
  | nil =>
    cases rest with
    | nil => simp [hasSubstr, List.isEmpty]
    | cons c cs => simp [hasSubstr, List.isPrefixOf]
  | cons a as =>
    have h := isPrefixOf_append_self (a :: as) rest
    simp only [List.cons_append] at h
    simp [hasSubstr, h]

theorem afterFirst_first_occurrence (c0 : Char) (sepTl pre rest : List Char)
    (hpre : c0 ∉ pre) :
    afterFirst (c0 :: sepTl) (pre ++ ((c0 :: sepTl) ++ rest)) = some rest := by
  induction pre with
  | nil =>
    have hp := isPrefixOf_append_self (c0 :: sepTl) rest
    simp only [List.cons_append] at hp
    simp only [List.nil_append, List.cons_append, afterFirst, hp, if_true]
    have := List.drop_left (c0 :: sepTl) rest
    simp only [List.cons_append] at this
    simp [this]
  | cons p ps ih =>
    have hne : c0 ≠ p := fun h => hpre (h ▸ List.mem_cons_self p ps)
    have hnp : (c0 :: sepTl).isPrefixOf (p :: (ps ++ (c0 :: (sepTl ++ rest)))) = false := by
      simp [List.isPrefixOf, hne]
    have ih' := ih (fun h => hpre (List.mem_cons_of_mem _ h))
    simp only [List.cons_append, List.append_assoc] at ih' ⊢
    simp only [afterFirst, hnp, Bool.false_eq_true, if_false]
    exact ih'

theorem upTo_of_not_mem (c0 : Char) (sepTl s : List Char) (h : c0 ∉ s) :
    upTo (c0 :: sepTl) s = s := by
  induction s with
  | nil => rfl
  | cons a as ih =>
    have hne : c0 ≠ a := fun hc => h (hc ▸ List.mem_cons_self a as)
    have hnp : (c0 :: sepTl).isPrefixOf (a :: as) = false := by
      simp [List.isPrefixOf, hne]
    simp only [upTo, hnp, if_neg Bool.false_ne_true]
    exact congrArg (a :: ·) (ih (fun hm => h (List.mem_cons_of_mem _ hm)))

theorem takeWhile_append_stop (p : Char → Bool) (xs : List Char) (y : Char)
    (ys : List Char) (hall : ∀ x ∈ xs, p x = true) (hy : p y = false) :
    List.takeWhile p (xs ++ y :: ys) = xs := by
  induction xs with
  | nil => simp [List.takeWhile, hy]
  | cons a as ih =>
    have ha : p a = true := hall a (List.mem_cons_self a as)
    simp only [List.cons_append, List.takeWhile, ha]
    exact congrArg (a :: ·) (ih (fun x hx => hall x (List.mem_cons_of_mem _ hx)))

/-! ### Decimal printing and parsing -/

theorem digitChar_toNat (d : Nat) (h : d < 10) : (digitChar d).toNat = 48 + d := by
  interval_cases d <;> rfl

theorem decValue_append_digit (xs : List Char) (c : Char) :
    decValue (xs ++ [c]) = decValue xs * 10 + (c.toNat - 48) := by
  simp [decValue, List.foldl_append]

theorem decValue_natToDecimal (n : Nat) : decValue (natToDecimal n) = n := by
  induction n using Nat.strong_induction_on with
  | _ n ih =>
    unfold natToDecimal
    split
    · next h =>
      have hd := digitChar_toNat n h
      simp [decValue, hd]
    · next h =>
      rw [decValue_append_digit]
      have hdiv : n / 10 < n := Nat.div_lt_self (by omega) (by omega)
      rw [ih (n / 10) hdiv, digitChar_toNat (n % 10) (Nat.mod_lt _ (by omega))]
      omega

theorem natToDecimal_digits (n : Nat) :
    ∀ c ∈ natToDecimal n, 48 ≤ c.toNat ∧ c.toNat ≤ 57 := by
  induction n using Nat.strong_induction_on with
  | _ n ih =>
    unfold natToDecimal
    split
    · next h =>
      intro c hc
      simp only [List.mem_singleton] at hc
      subst hc
      rw [digitChar_toNat n h]
      omega
    · next h =>
      intro c hc
      rcases List.mem_append.1 hc with hleft | hright
      · exact ih (n / 10) (Nat.div_lt_self (by omega) (by omega)) c hleft
      · simp only [List.mem_singleton] at hright
        subst hright
        rw [digitChar_toNat (n % 10) (Nat.mod_lt _ (by omega))]
        omega

theorem natToDecimal_ne_nil (n : Nat) : natToDecimal n ≠ [] := by
  unfold natToDecimal
  split
  · simp
  · simp

theorem parseU16_natToDecimal (p : Nat) (hp : p < 65536) :
    parseU16 (natToDecimal p) = some p := by
  obtain ⟨d, ds, hcons⟩ : ∃ d ds, natToDecimal p = d :: ds := by
    cases h : natToDecimal p with
    | nil => exact absurd h (natToDecimal_ne_nil p)
    | cons d ds => exact ⟨d, ds, rfl⟩
  have hdigits := natToDecimal_digits p
  have hd : 48 ≤ d.toNat ∧ d.toNat ≤ 57 := hdigits d (by rw [hcons]; exact List.mem_cons_self d ds)
  have hdplus : d ≠ '+' := by
    intro h
    rw [h] at hd
    have h43 : ('+').toNat = 43 := rfl
    omega
  have hall : (d :: ds).all isDigitChar = true := by
    rw [List.all_eq_true]
    intro c hc
    have := hdigits c (by rw [hcons]; exact hc)
    simp [isDigitChar, this]
  have hval : decValue (d :: ds) = p := by rw [← hcons]; exact decValue_natToDecimal p
  have hle : p ≤ 65535 := by omega
  rw [hcons, parseU16]
  simp only [if_neg hdplus, parseDigitsU16, if_neg (List.cons_ne_nil d ds), hall, if_true, hval]
  simp [hle]

theorem digit_not_ws (c : Char) (h : 48 ≤ c.toNat ∧ c.toNat ≤ 57) :
    isRustWhitespace c = false := by
  simp only [isRustWhitespace, decide_eq_false_iff_not]
  omega

/-! ### Port extraction on a well-formed announcement line -/

theorem extractPort_portLine (p : Nat) (hp : p < 65536) :
    extractPort (portLine p) = some p := by
  have hds := natToDecimal_digits p
  have hsplit : "Uvicorn running on http://127.0.0.1:".data =
      "Uvicorn running on ".data ++ ('h' :: "ttp://127.0.0.1:".data) := by decide
  have hhost : hostPat = 'h' :: "ttp://127.0.0.1:".data := by decide
  have huvi : "Uvicorn running on http://127.0.0.1:".data =
      uvicornPat ++ (' ' :: hostPat) := by decide
  have hform1 : portLine p = uvicornPat ++
      (' ' :: (hostPat ++ (natToDecimal p ++ " (Press CTRL+C to quit)".data))) := by
    rw [portLine, huvi]
    simp [List.append_assoc]
  have hform2 : portLine p = "Uvicorn running on ".data ++
      (('h' :: "ttp://127.0.0.1:".data) ++
        (natToDecimal p ++ " (Press CTRL+C to quit)".data)) := by
    rw [portLine, hsplit]
    simp [List.append_assoc]
  have hsub : hasSubstr uvicornPat (portLine p) = true := by
    rw [hform1]
    exact hasSubstr_append_self _ _
  have hnoh : 'h' ∉ natToDecimal p ++ " (Press CTRL+C to quit)".data := by
    intro hm
    rcases List.mem_append.1 hm with hm | hm
    · have hb := hds 'h' hm
      have h104 : ('h').toNat = 104 := rfl
      omega
    · revert hm
      decide
  have haf : afterFirst hostPat (portLine p) =
      some (natToDecimal p ++ " (Press CTRL+C to quit)".data) := by
    rw [hform2, hhost]
    exact afterFirst_first_occurrence 'h' _ _ _ (by decide)
  have hupto : upTo hostPat (natToDecimal p ++ " (Press CTRL+C to quit)".data) =
      natToDecimal p ++ " (Press CTRL+C to quit)".data := by
    rw [hhost]
    exact upTo_of_not_mem 'h' _ _ hnoh
  obtain ⟨d, ds', hcons⟩ : ∃ d ds', natToDecimal p = d :: ds' := by
    cases h : natToDecimal p with
    | nil => exact absurd h (natToDecimal_ne_nil p)
    | cons d ds' => exact ⟨d, ds', rfl⟩
  have hdd : 48 ≤ d.toNat ∧ d.toNat ≤ 57 :=
    hds d (by rw [hcons]; exact List.mem_cons_self _ _)
  have htok : firstToken ((d :: ds') ++ (' ' :: "(Press CTRL+C to quit)".data)) =
      some (d :: ds') := by
    have hall : ∀ x ∈ d :: ds', (!isRustWhitespace x) = true := by
      intro x hx
      have hx' := hds x (by rw [hcons]; exact hx)
      simp [digit_not_ws x hx']
    have htake := takeWhile_append_stop (fun a => !isRustWhitespace a) (d :: ds') ' '
      "(Press CTRL+C to quit)".data hall (by decide)
    have h1 : isRustWhitespace d = false := digit_not_ws d hdd
    simp only [List.cons_append] at htake ⊢
    simp [firstToken, List.dropWhile, h1, htake]
  have hptok : portToken (portLine p) = some (natToDecimal p) := by
    unfold portToken
    rw [haf]
    simp only [hupto]
    rw [hcons]
    exact htok
  unfold extractPort
  rw [hsub, hptok]
  simp [parseU16_natToDecimal p hp]

/-! ### Observable components of one pump iteration -/

theorem processLine_backendPort (hw w : Bool) (st : PumpState) (line : List Char) :
    (processLine hw w st line).backendPort =
      (match extractPort line with
       | some p => p
       | none => st.backendPort) := by
  cases h : extractPort line <;> cases w <;> simp [processLine, h]

theorem processLine_evals (hw w : Bool) (st : PumpState) (line : List Char) :
    (processLine hw w st line).evals =
      (match extractPort line with
       | some p => if hw then st.evals ++ [backendUrl p] else st.evals
       | none => st.evals) := by
  cases h : extractPort line <;> cases w <;> cases hw <;> simp [processLine, h]

theorem processLine_logLines (hw w : Bool) (st : PumpState) (line : List Char) :
    (processLine hw w st line).logLines =
      (if w then st.logLines ++ [apiPrefix ++ stripAnsi line] else st.logLines) := by
  cases h : extractPort line <;> cases w <;> simp [processLine, h]

theorem stripAnsiGo_no_esc (fuel : Nat) (s : List Char) (h : '\x1b' ∉ s) :
    stripAnsiGo fuel s = s := by
  induction fuel generalizing s with
  | zero => cases s <;> rfl
  | succ fuel ih =>
    cases s with
    | nil => rfl
    | cons c cs =>
      have hne : c ≠ '\x1b' := fun hc => h (hc ▸ List.mem_cons_self c cs)
      have h' : '\x1b' ∉ cs := fun hm => h (List.mem_cons_of_mem _ hm)
      simp [stripAnsiGo, hne, ih cs h']

/-- On a line containing no escape character, ANSI stripping is the identity. -/
theorem stripAnsi_no_esc (s : List Char) (h : '\x1b' ∉ s) : stripAnsi s = s :=
  stripAnsiGo_no_esc s.length s h

theorem pumpLines_port (hw : Bool) (st : PumpState) (evs : List (List Char × Bool)) :
    (pumpLines hw st evs).backendPort =
      lastSome st.backendPort (evs.filterMap (fun e => extractPort e.1)) := by
  induction evs generalizing st with
  | nil => rfl
  | cons e rest ih =>
    obtain ⟨l, w⟩ := e
    cases hE : extractPort l with
    | none =>
      have hport : (processLine hw w st l).backendPort = st.backendPort := by
        rw [processLine_backendPort]; simp [hE]
      simp only [pumpLines, List.filterMap_cons, hE]
      rw [ih, hport]
    | some p =>
      have hport : (processLine hw w st l).backendPort = p := by
        rw [processLine_backendPort]; simp [hE]
      simp only [pumpLines, List.filterMap_cons, hE]
      rw [ih, hport]
      rfl

theorem pumpLines_evals (st : PumpState) (evs : List (List Char × Bool)) :
    (pumpLines true st evs).evals =
      st.evals ++ (evs.filterMap (fun e => extractPort e.1)).map backendUrl := by
  induction evs generalizing st with
  | nil => simp [pumpLines]
  | cons e rest ih =>
    obtain ⟨l, w⟩ := e
    cases hE : extractPort l with
    | none =>
      have hev : (processLine true w st l).evals = st.evals := by
        rw [processLine_evals]; simp [hE]
      simp only [pumpLines, List.filterMap_cons, hE]
      rw [ih, hev]
    | some p =>
      have hev : (processLine true w st l).evals = st.evals ++ [backendUrl p] := by
        rw [processLine_evals]; simp [hE]
      simp only [pumpLines, List.filterMap_cons, hE]
      rw [ih, hev]
      simp [List.append_assoc]

/-! ### Claim theorems -/

/-- Claim C1: for every output line of the form
`Uvicorn running on http://127.0.0.1:<port> (Press CTRL+C to quit)` with
`<port>` the decimal digits of a value in `u16` range, the port-extraction
logic yields that port and the URL pushed into the GUI layer equals
`http://localhost:<port>`. -/
theorem C1_port_extraction_and_url (p : Nat) (hp : p < 65536) (w : Bool) (st : PumpState) :
    extractPort (portLine p) = some p ∧
    (processLine true w st (portLine p)).evals =
      st.evals ++ ["http://localhost:".data ++ natToDecimal p] := by
  have hex := extractPort_portLine p hp
  refine ⟨hex, ?_⟩
  rw [processLine_evals]
  simp [hex, backendUrl]

theorem C1_witness :
    8734 < 65536 ∧
      (extractPort (portLine 8734) = some 8734 ∧
        (processLine true true initState (portLine 8734)).evals =
          initState.evals ++ ["http://localhost:".data ++ natToDecimal 8734]) :=
  ⟨by omega, C1_port_extraction_and_url 8734 (by omega) true initState⟩

/-- Claim C2: a port update happens only for a line that contains
`Uvicorn running on` and whose token after `http://127.0.0.1:` parses as a
`u16`; for every other line (substring absent, token absent, non-numeric or
out of range) the discovered port and the injected URLs are left unchanged
and no error is raised (the function below is total and returns normally). -/
theorem C2_no_update_on_nonmatching (hw w : Bool) (st : PumpState) (line : List Char)
    (h : hasSubstr uvicornPat line = false ∨ portToken line = none ∨
      (∃ tok, portToken line = some tok ∧ parseU16 tok = none)) :
    (processLine hw w st line).backendPort = st.backendPort ∧
    (processLine hw w st line).evals = st.evals := by
  have hex : extractPort line = none := by
    unfold extractPort
    rcases h with h | h | ⟨tok, htok, hpt⟩
    · simp [h]
    · cases hsub : hasSubstr uvicornPat line <;> simp [h]
    · cases hsub : hasSubstr uvicornPat line <;> simp [htok, hpt]
  constructor
  · rw [processLine_backendPort]; simp [hex]
  · rw [processLine_evals]; simp [hex]

theorem C2_witness :
    hasSubstr uvicornPat "INFO: Application startup complete.".data = false ∧
      ((processLine true true initState "INFO: Application startup complete.".data).backendPort =
          initState.backendPort ∧
        (processLine true true initState "INFO: Application startup complete.".data).evals =
          initState.evals) :=
  ⟨by decide,
    C2_no_update_on_nonmatching true true initState
      "INFO: Application startup complete.".data (Or.inl (by decide))⟩

/-- Claim C3 as stated is false: this line contains an ANSI escape sequence
(stripping changes it), yet the raw line and the stripped line do not yield
the same port-matching outcome: on the raw line the whitespace token after
`http://127.0.0.1:` still carries the escape bytes and parses as nothing,
while the stripped line yields port 80. -/
theorem C3_counterexample :
    stripAnsi "Uvicorn running on http://127.0.0.1:\x1b[0m80 x".data ≠
        "Uvicorn running on http://127.0.0.1:\x1b[0m80 x".data ∧
      extractPort "Uvicorn running on http://127.0.0.1:\x1b[0m80 x".data = none ∧
      extractPort (stripAnsi "Uvicorn running on http://127.0.0.1:\x1b[0m80 x".data) =
        some 80 :=
  ⟨by decide, by decide, by decide⟩

/-- Claim C3 (amended): every processed line is written to the log with the
ANSI escape sequences removed by the left-to-right scan, but port matching is
applied to the raw line, not the stripped one; the two matching outcomes are
guaranteed to coincide (stripping being the identity) for lines that contain
no escape character. -/
theorem C3_log_stripped_raw_matched (hw w : Bool) (st : PumpState) (line l2 : List Char)
    (h2 : '\x1b' ∉ l2) :
    (processLine hw w st line).logLines =
      (if w then st.logLines ++ [apiPrefix ++ stripAnsi line] else st.logLines) ∧
    (processLine hw w st line).backendPort =
      (match extractPort line with
       | some p => p
       | none => st.backendPort) ∧
    stripAnsi l2 = l2 ∧
    extractPort (stripAnsi l2) = extractPort l2 := by
  refine ⟨processLine_logLines hw w st line, processLine_backendPort hw w st line, ?_, ?_⟩
  · exact stripAnsi_no_esc l2 h2
  · rw [stripAnsi_no_esc l2 h2]

theorem C3_witness :
    '\x1b' ∉ "OK".data ∧
      ((processLine true true initState "\x1b[32mOK\x1b[0m".data).logLines =
          (if true then initState.logLines ++
            [apiPrefix ++ stripAnsi "\x1b[32mOK\x1b[0m".data] else initState.logLines) ∧
        (processLine true true initState "\x1b[32mOK\x1b[0m".data).backendPort =
          (match extractPort "\x1b[32mOK\x1b[0m".data with
           | some p => p
           | none => initState.backendPort) ∧
        stripAnsi "OK".data = "OK".data ∧
        extractPort (stripAnsi "OK".data) = extractPort "OK".data) :=
  ⟨by decide,
    C3_log_stripped_raw_matched true true initState "\x1b[32mOK\x1b[0m".data "OK".data
      (by decide)⟩

/-- Claim C4: there is no first-match-wins guard, so every matching line
overwrites the discovered port: after pumping any batch of output lines the
discovered port is the last extracted port (or the prior value when no line
matched), and with a main window present the URLs are injected in order, one
per matching line, the last being the one ultimately reflected in the GUI. -/
theorem C4_last_match_governs (hw : Bool) (st : PumpState)
    (evs : List (List Char × Bool)) :
    (pumpLines hw st evs).backendPort =
      lastSome st.backendPort (evs.filterMap (fun e => extractPort e.1)) ∧
    (pumpLines true st evs).evals =
      st.evals ++ (evs.filterMap (fun e => extractPort e.1)).map backendUrl :=
  ⟨pumpLines_port hw st evs, pumpLines_evals st evs⟩

/-- Claim C5: given no pre-existing database file at the target path and a
present bundled template, a successful setup copy makes the target exist with
contents byte-identical to the template. -/
theorem C5_seed_copied {Path : Type} [DecidableEq Path] {Bytes E : Type}
    (fs : Path → Option Bytes) (dbPath rp : Path) (content : Bytes)
    (h1 : fs dbPath = none) (h2 : fs rp = some content) :
    seedDatabase fs dbPath (some rp) (Except.ok () : Except E Unit) dbPath =
      some content := by
  unfold seedDatabase
  simp [h1, h2]

theorem C5_witness :
    exFs 0 = none ∧ exFs 1 = some [7] ∧
      seedDatabase exFs 0 (some 1) (Except.ok () : Except Unit Unit) 0 = some [7] :=
  ⟨rfl, rfl, C5_seed_copied exFs 0 1 [7] rfl rfl⟩

/-- Claim C6: a pre-existing database file at the target path is never
modified or replaced by setup, whatever the template contains, whether the
resource directory resolves and whatever the copy would have done: the whole
filesystem is returned unchanged, so the seed is copied at most once and
never overwrites an existing database. -/
theorem C6_existing_db_untouched {Path : Type} [DecidableEq Path] {Bytes E : Type}
    (fs : Path → Option Bytes) (dbPath : Path) (rp? : Option Path)
    (copyResult : Except E Unit) (b : Bytes) (h : fs dbPath = some b) :
    seedDatabase fs dbPath rp? copyResult = fs := by
  unfold seedDatabase
  simp [h]

theorem C6_witness :
    exFs 2 = some [3] ∧
      seedDatabase exFs 2 (some 1) (Except.ok () : Except Unit Unit) = exFs :=
  ⟨rfl, C6_existing_db_untouched exFs 2 (some 1) (Except.ok ()) [3] rfl⟩

/-- Claim C7: failure to open `backend.log` is fatal: the pump task aborts
with the panic message `Cannot open log file` instead of pumping anything,
whereas the database-copy failure path continues with the filesystem
unchanged rather than aborting. -/
theorem C7_log_open_failure_fatal {E H : Type} (e : E) (hw : Bool)
    (evs : List (List Char × Bool)) {Path : Type} [DecidableEq Path] {Bytes : Type}
    (fs : Path → Option Bytes) (dbPath rp : Path) (err : E) :
    pumpTask (Except.error e : Except E H) hw evs =
      Except.error "Cannot open log file".data ∧
    seedDatabase fs dbPath (some rp) (Except.error err : Except E Unit) = fs := by
  constructor
  · rfl
  · unfold seedDatabase
    cases hfs : fs dbPath <;> cases hrp : fs rp <;> simp [hfs, hrp]

/-- Claim C8: the sidecar is spawned with the arguments
`--host 127.0.0.1 --port 8000` and exactly one environment variable,
`DATABASE_URL`, whose value is `sqlite:///` followed by the database path
with every backslash replaced by a forward slash, so no backslash remains in
the value. -/
theorem C8_sidecar_invocation (dbPath : List Char) :
    sidecarArgs = ["--host".data, "127.0.0.1".data, "--port".data, "8000".data] ∧
    sidecarEnv dbPath =
      [("DATABASE_URL".data, "sqlite:///".data ++ dbPath.map escSlash)] ∧
    '\\' ∉ databaseUrl dbPath := by
  refine ⟨rfl, rfl, ?_⟩
  intro hm
  unfold databaseUrl at hm
  rcases List.mem_append.1 hm with hm | hm
  · revert hm; decide
  · rcases List.mem_map.1 hm with ⟨a, _, ha⟩
    unfold escSlash at ha
    by_cases hb : a = '\\'
    · rw [if_pos hb] at ha
      exact absurd ha (by decide)
    · rw [if_neg hb] at ha
      exact hb ha

/-- Claim C9: when a port line parses but no `main` window exists, the
discovered-port state is still updated to the parsed value and no script is
evaluated. -/
theorem C9_no_window_updates_port_only (w : Bool) (st : PumpState) (line : List Char)
    (p : Nat) (h : extractPort line = some p) :
    (processLine false w st line).backendPort = p ∧
    (processLine false w st line).evals = st.evals := by
  constructor
  · rw [processLine_backendPort]; simp [h]
  · rw [processLine_evals]; simp [h]

theorem C9_witness :
    extractPort "Uvicorn running on http://127.0.0.1:8001".data = some 8001 ∧
      ((processLine false true initState
            "Uvicorn running on http://127.0.0.1:8001".data).backendPort = 8001 ∧
        (processLine false true initState
            "Uvicorn running on http://127.0.0.1:8001".data).evals = initState.evals) :=
  ⟨by decide,
    C9_no_window_updates_port_only true initState
      "Uvicorn running on http://127.0.0.1:8001".data 8001 (by decide)⟩

/-- Claim C10: a failed log write is non-fatal: the pump loop goes on to the
remaining lines, port matching is still applied to the very line whose write
failed (discovered port and injected URLs agree with the successful-write
run), and the only difference is that nothing is appended to the log. -/
theorem C10_write_failure_nonfatal (hw : Bool) (st : PumpState) (line : List Char)
    (rest : List (List Char × Bool)) :
    pumpLines hw st ((line, false) :: rest) =
      pumpLines hw (processLine hw false st line) rest ∧
    (processLine hw false st line).backendPort =
      (processLine hw true st line).backendPort ∧
    (processLine hw false st line).evals = (processLine hw true st line).evals ∧
    (processLine hw false st line).logLines = st.logLines := by
  refine ⟨rfl, ?_, ?_, ?_⟩
  · rw [processLine_backendPort, processLine_backendPort]
  · rw [processLine_evals, processLine_evals]
  · rw [processLine_logLines]; simp

end Shabtzak
